import Mathlib

/-!
Shallow embedding of `patacrep/songs/__init__.py` (song management: the
cache-validated parse pipeline, path helpers, title-prefix stripping,
file search and render dispatch), together with theorems settling the
frozen claims about it.

Modelling conventions:
* POSIX path strings; `pathJoin`, `normpath`, `dirname`, `abspath`, `isabs`
  follow CPython's `posixpath` implementations.
* The filesystem is a string-keyed map: two distinct path strings denote
  distinct filesystem objects (no aliasing through `..` or symlinks).
* `pickle` round-trips exactly: a cache file on disk is either a
  deserializable snapshot (`FileData.snap`) or something whose
  deserialization (or subsequent required-key access) raises
  (`FileData.corrupt`, or raw `FileData.bytes`); the bare `except` of the
  source collapses all of those failures into the same observable miss.
* `hashlib.md5` and `patacrep.authors.process_listauthors` are external:
  they are passed as function parameters.
-/

deriving instance DecidableEq for Except

/-- `os.path.isabs` for POSIX (`s.startswith('/')`): the first character
is a slash. -/
def isabs (p : String) : Bool :=
  match p.data with
  | c :: _ => c = '/'
  | [] => false

/-- `s.endswith('/')`: the last character is a slash. -/
def endsWithSlash (p : String) : Bool :=
  match p.data.getLast? with
  | some c => c = '/'
  | none => false

/-- `os.path.join` for POSIX, two arguments: an absolute second argument
discards the first; otherwise a separating slash is inserted unless the
first part is empty or already ends with a slash. -/
def pathJoin (a b : String) : String :=
  if isabs b then b
  else if a = "" ∨ endsWithSlash a then a ++ b
  else a ++ "/" ++ b

/-- `p.split('/')` on a character list. -/
def splitSlash : List Char → List (List Char)
  | [] => [[]]
  | c :: rest =>
    match splitSlash rest with
    | [] => [[]]
    | h :: t => if c = '/' then [] :: h :: t else (c :: h) :: t

/-- `'/'.join(comps)` on character lists. -/
def joinSlash : List (List Char) → List Char
  | [] => []
  | [x] => x
  | x :: rest => x ++ '/' :: joinSlash rest

/-- `os.path.normpath` for POSIX: collapse repeated slashes, drop `.`
components, cancel `..` against preceding components (except at the root
or against other `..`), preserving one or exactly two leading slashes
(CPython keeps 2 only for exactly two leading slashes). -/
def normpath (p : String) : String :=
  if p = "" then "."
  else
    let slashes : Nat :=
      match p.data with
      | '/' :: '/' :: '/' :: _ => 1
      | '/' :: '/' :: _ => 2
      | '/' :: _ => 1
      | _ => 0
    let comps := splitSlash p.data
    let newComps := comps.foldl
      (fun acc comp =>
        if comp = ([] : List Char) ∨ comp = ['.'] then acc
        else if comp ≠ ['.', '.'] ∨ (slashes = 0 ∧ acc = []) ∨
            acc.getLast? = some ['.', '.'] then
          acc ++ [comp]
        else if acc ≠ [] then acc.dropLast
        else acc)
      []
    let out := String.mk (List.replicate slashes '/' ++ joinSlash newComps)
    if out = "" then "." else out

/-- Index of the last `/` of a character list, if any. -/
def lastSlashIdx? (l : List Char) : Option Nat :=
  match l.reverse.findIdx? (· = '/') with
  | none => none
  | some j => some (l.length - 1 - j)

/-- Remove trailing slashes (`str.rstrip('/')`). -/
def rstripSlashes (l : List Char) : List Char :=
  (l.reverse.dropWhile (· = '/')).reverse

/-- `os.path.dirname` for POSIX: everything up to and including the last
slash, with trailing slashes stripped unless the head is all slashes. -/
def dirname (p : String) : String :=
  let l := p.toList
  match lastSlashIdx? l with
  | none => ""
  | some i =>
    let head := l.take (i+1)
    if head.all (· = '/') then String.mk head else String.mk (rstripSlashes head)

/-- `os.path.abspath` for POSIX: join onto the working directory when
relative, then normalize. -/
def abspath (cwd p : String) : String :=
  if isabs p then normpath p else normpath (pathJoin cwd p)

/-- Errors of filesystem operations (`errno` values the source examines,
plus the ones its operations can raise). -/
inductive OSErr where
  | eexist
  | enoent
  | enotdir
  | eisdir
deriving DecidableEq, Repr

/-- The serializable subset of a Song's state (`Song.cached_attributes`):
exactly the nine attributes the source pickles. -/
structure Snapshot where
  titles : List String
  unprefixed_titles : List String
  cached : Option (List Nat)
  data : List (String × String)
  subpath : String
  languages : List String
  authors : List String
  filehash : List Nat
  version : Nat
deriving DecidableEq, Repr

/-- Content of a regular file: raw song bytes, a pickled snapshot, or a
file whose unpickling raises (corrupt/truncated pickle, or a pickled dict
missing a required key — the bare `except` makes these indistinguishable). -/
inductive FileData where
  | bytes (b : List Nat)
  | snap (s : Snapshot)
  | corrupt
deriving DecidableEq, Repr

/-- A string-keyed filesystem: the working directory, the set of existing
directories and the map of regular files. -/
structure FS where
  cwd : String
  dirs : List String
  files : List (String × FileData)
deriving DecidableEq, Repr

/-- `os.path.isdir`. -/
def FS.isdir (fs : FS) (p : String) : Bool := fs.dirs.contains p

/-- A regular file exists at `p`. -/
def FS.isfileAt (fs : FS) (p : String) : Bool := (fs.files.lookup p).isSome

/-- `os.path.exists`. -/
def FS.pathExists (fs : FS) (p : String) : Bool := fs.isdir p || fs.isfileAt p

/-- Record a new directory. -/
def FS.addDir (fs : FS) (p : String) : FS := { fs with dirs := p :: fs.dirs }

/-- `open(p, 'rb').read()` on a raw file. -/
def FS.readBytes (fs : FS) (p : String) : Option (List Nat) :=
  match fs.files.lookup p with
  | some (FileData.bytes b) => some b
  | _ => none

/-- `pickle.load(open(p, 'rb'))` followed by the required-key accesses:
`some` exactly when a full snapshot is recovered; every failure mode
(missing file, directory, raw bytes, corrupt pickle) is `none`. -/
def FS.readCacheFile (fs : FS) (p : String) : Option Snapshot :=
  match fs.files.lookup p with
  | some (FileData.snap s) => some s
  | _ => none

/-- Write (create or overwrite) a regular file at `p`: the new entry is
prepended and shadows any older entry under `lookup`. -/
def FS.writeFile (fs : FS) (p : String) (d : FileData) : Except OSErr FS :=
  if fs.isdir p then .error .eisdir
  else .ok { fs with files := (p, d) :: fs.files }

/-- `os.makedirs`, fuelled for termination: create `p` and its missing
ancestors; an existing leaf (file or directory) raises `EEXIST`, a file
blocking an ancestor raises `ENOTDIR`. Fuel exhaustion cannot occur when
the fuel exceeds the path length (each recursion strictly shortens it). -/
def makedirsF : Nat → FS → String → Except OSErr FS
  | 0, _, _ => .error .enoent
  | fuel+1, fs, p =>
    if p = "" then .error .enoent
    else if fs.pathExists p then .error .eexist
    else
      let par := dirname p
      if par = "" ∨ par = p then .ok (fs.addDir p)
      else if fs.isdir par then .ok (fs.addDir p)
      else if fs.isfileAt par then .error .enotdir
      else
        match makedirsF fuel fs par with
        | .error e => .error e
        | .ok fs1 => .ok (fs1.addDir p)

/-- `os.makedirs` at its standard fuel. -/
def makedirs (fs : FS) (p : String) : Except OSErr FS :=
  makedirsF (p.length + 1) fs p

/-- `cached_name(datadir, filename)`: the absolute path of
`datadir/.cache/filename`, after ensuring its directory exists; a
`makedirs` failure is swallowed exactly when the error is `EEXIST` and the
directory indeed exists, and propagates unchanged otherwise. -/
def cached_name (fs : FS) (datadir filename : String) : Except OSErr (String × FS) :=
  let fullpath := abspath fs.cwd (pathJoin (pathJoin datadir ".cache") filename)
  let directory := dirname fullpath
  match makedirs fs directory with
  | .ok fs1 => .ok (fullpath, fs1)
  | .error e =>
    if e = OSErr.eexist ∧ fs.isdir directory then .ok (fullpath, fs)
    else .error e

/-- The cache path `cached_name` computes, without the side effect. -/
def cachePathOf (cwd datadir filename : String) : String :=
  abspath cwd (pathJoin (pathJoin datadir ".cache") filename)

/-- `DataSubpath`: a datadir and a subpath below it. -/
structure DataSubpath where
  datadir : String
  subpath : String
deriving DecidableEq, Repr

/-- `DataSubpath.__init__`: an absolute subpath forces an empty datadir. -/
def DataSubpath.init (datadir subpath : String) : DataSubpath :=
  if isabs subpath then { datadir := "", subpath := subpath }
  else { datadir := datadir, subpath := subpath }

/-- `DataSubpath.fullpath`. -/
def DataSubpath.fullpath (s : DataSubpath) : String := pathJoin s.datadir s.subpath

/-- `DataSubpath.clone`. -/
def DataSubpath.clone (s : DataSubpath) : DataSubpath :=
  DataSubpath.init s.datadir s.subpath

/-- `DataSubpath.join`: replace the subpath by `os.path.join(subpath, path)`
(in-place in the source; state-passing here). -/
def DataSubpath.join (s : DataSubpath) (path : String) : DataSubpath :=
  { s with subpath := pathJoin s.subpath path }

/-- States a `DataSubpath` can reach: a construction followed by any
sequence of `join` calls. -/
inductive DataSubpath.Reachable : DataSubpath → Prop where
  | init (d sp : String) : DataSubpath.Reachable (DataSubpath.init d sp)
  | join (s : DataSubpath) (p : String) :
      DataSubpath.Reachable s → DataSubpath.Reachable (s.join p)

/-- States reachable when every joined segment is relative. -/
inductive DataSubpath.ReachableRel : DataSubpath → Prop where
  | init (d sp : String) : DataSubpath.ReachableRel (DataSubpath.init d sp)
  | join (s : DataSubpath) (p : String) (hp : isabs p = false) :
      DataSubpath.ReachableRel s → DataSubpath.ReachableRel (s.join p)

/-- Python's `\w` under the default locale: ASCII letter, digit or `_`. -/
def wordChar (c : Char) : Bool := c.isAlphanum || c = '_'

/-- Python's `\s`: the six ASCII whitespace characters. -/
def pySpace (c : Char) : Bool :=
  c = ' ' || c = '\t' || c = '\n' || c = '\x0d' || c = '\x0b' || c = '\x0c'

/-- `\b` at the seam between a matched head and the remainder: exactly one
side is a word character (start and end of string count as non-word). -/
def boundaryOK (head rest : List Char) : Bool :=
  let leftWord := match head.getLast? with
    | some c => wordChar c
    | none => false
  let rightWord := match rest with
    | c :: _ => wordChar c
    | [] => false
  leftWord != rightWord

/-- `\s*(.*)$` (no `MULTILINE`, `.` not matching newline) applied to
`rest`: greedily drop whitespace, then capture up to the first newline,
which must be the end of the string or a single trailing newline.
A greedy match decides: shrinking `\s*` can never repair a failed `$`. -/
def matchTail (rest : List Char) : Option (List Char) :=
  let r2 := rest.dropWhile pySpace
  let body := r2.takeWhile (· ≠ '\n')
  let tl := r2.drop body.length
  if tl = [] ∨ tl = ['\n'] then some body else none

/-- Python `re` metacharacters (`. ^ $ * + ? { } [ ] \ | ( )`): a string
containing none of them is matched by the compiled pattern exactly as a
literal, and compiling it cannot raise `re.error`. -/
def pyRegexSpecial (c : Char) : Bool :=
  c = '.' || c = '^' || c = '$' || c = '*' || c = '+' || c = '?' ||
  c = Char.ofNat 123 || c = Char.ofNat 125 || c = '[' || c = ']' ||
  c = '\\' || c = '|' || c = '(' || c = ')'

/-- The prefix is free of regex metacharacters, so the source's
interpolated pattern `^(%s)\b\s*(.*)$` treats it as a literal. -/
def regexLiteral (p : String) : Bool :=
  p.data.all (fun c => !(pyRegexSpecial c))

/-- One attempt of `re.compile(r"^(p)\b\s*(.*)$").match(title)`,
returning `group(2)`. The source interpolates the prefix into the
pattern, so this literal `isPrefixOf` model is faithful exactly when the
prefix contains no regex metacharacter (`regexLiteral`); a metacharacter
prefix is interpreted as a pattern and an ill-formed one raises
`re.error`, both outside this model — theorems about it therefore carry
a `regexLiteral` hypothesis. -/
def matchTitleHead (p title : List Char) : Option (List Char) :=
  if p.isPrefixOf title then
    let rest := title.drop p.length
    if boundaryOK p rest then matchTail rest else none
  else none

/-- `unprefixed_title(title, prefixes)`: the first pattern that matches
strips the head word and following whitespace; otherwise the title is
returned unchanged. Inherits `matchTitleHead`'s literal-prefix domain:
it agrees with the source only on prefixes satisfying `regexLiteral`. -/
def unprefixed_title (title : String) (prefixes : List String) : String :=
  match prefixes with
  | [] => title
  | p :: rest =>
    match matchTitleHead p.toList title.toList with
    | some r => String.mk r
    | none => unprefixed_title title rest

/-- The configuration keys the pipeline consumes: text encoding, ordered
title-prefix words, the optional `_compiled_authwords` options for the
author normalizer, and the ordered datadir list. -/
structure Config where
  encoding : String
  titleprefixwords : List String
  compiledAuthwords : Option (List (String × String))
  datadir : List String
deriving DecidableEq, Repr

/-- What the abstract `_parse` hook must populate: raw titles, languages,
raw authors, metadata and the opaque extra cached payload. -/
structure ParseResult where
  titles : List String
  languages : List String
  authors : List String
  data : List (String × String)
  cached : Option (List Nat)
deriving DecidableEq, Repr

/-- `Song.CACHE_VERSION`. -/
def CACHE_VERSION : Nat := 2

/-- A fully constructed `Song`. `filehash` is `none` when the attribute
was never set (no datadir, so no hashing). -/
structure Song where
  datadir : String
  fullpath : String
  encoding : String
  config : Config
  titles : List String
  unprefixed_titles : List String
  cached : Option (List Nat)
  data : List (String × String)
  subpath : String
  languages : List String
  authors : List String
  filehash : Option (List Nat)
  version : Nat
deriving DecidableEq, Repr

/-- The snapshot `_write_cache` pickles from a song (only called when the
datadir is non-empty, where `filehash` is set). -/
def snapOfSong (song : Song) : Snapshot :=
  { titles := song.titles
    unprefixed_titles := song.unprefixed_titles
    cached := song.cached
    data := song.data
    subpath := song.subpath
    languages := song.languages
    authors := song.authors
    filehash := song.filehash.getD []
    version := song.version }

/-- The cache-hit path: every attribute of `cached_attributes` is copied
from the snapshot onto the song already carrying its constructor state. -/
def songFromSnap (selfDatadir fullpath : String) (config : Config) (sn : Snapshot) : Song :=
  { datadir := selfDatadir
    fullpath := fullpath
    encoding := config.encoding
    config := config
    titles := sn.titles
    unprefixed_titles := sn.unprefixed_titles
    cached := sn.cached
    data := sn.data
    subpath := sn.subpath
    languages := sn.languages
    authors := sn.authors
    filehash := some sn.filehash
    version := sn.version }

/-- The warning `LOGGER.warning` emits when the cached version is unusable. -/
def warnMsg (fullpath : String) : String :=
  "Could not use cached version of " ++ fullpath ++ "."

/-- Truthiness of the `datadir` keyword: `None` and `""` are falsy. -/
def datadirTruthy : Option String → Bool
  | none => false
  | some d => d ≠ ""

/-- The song the parse path builds: run the `_parse` hook on the file's
bytes, strip title prefixes, normalize the raw authors, stamp the current
schema version. -/
def parsedSong
    (processListauthors : List String → List (String × String) → List String)
    (parseHook : Option (List Nat) → Config → ParseResult)
    (config : Config) (subpath selfDatadir fullpath : String)
    (filehash : Option (List Nat)) (fs : FS) : Song :=
  let pr := parseHook (fs.readBytes fullpath) config
  { datadir := selfDatadir
    fullpath := fullpath
    encoding := config.encoding
    config := config
    titles := pr.titles
    unprefixed_titles :=
      pr.titles.map (fun t => unprefixed_title t config.titleprefixwords)
    cached := pr.cached
    data := pr.data
    subpath := subpath
    languages := pr.languages
    authors := processListauthors pr.authors (config.compiledAuthwords.getD [])
    filehash := filehash
    version := CACHE_VERSION }

/-- The parse/post-process/persist path of `Song.__init__` (reached on
every miss and when no datadir is given): build `parsedSong`, then
`_write_cache` (a pickle dump at `cached_name`, only when the datadir is
non-empty). The `Nat` of the result counts `_parse` invocations; the
`List String` is the warning log. -/
def songParsePath
    (processListauthors : List String → List (String × String) → List String)
    (parseHook : Option (List Nat) → Config → ParseResult)
    (config : Config) (subpath selfDatadir fullpath : String)
    (filehash : Option (List Nat)) (log : List String) (fs : FS) :
    Except OSErr (Song × FS × Nat × List String) :=
  let song :=
    parsedSong processListauthors parseHook config subpath selfDatadir fullpath
      filehash fs
  if song.datadir = "" then .ok (song, fs, 1, log)
  else
    match cached_name fs song.datadir song.subpath with
    | .error e => .error e
    | .ok (cpath, fs1) =>
      match fs1.writeFile cpath (FileData.snap (snapOfSong song)) with
      | .error e => .error e
      | .ok fs2 => .ok (song, fs2, 1, log)

/-- `Song.__init__`: with a truthy datadir, hash the file's bytes, ensure
the cache directory, and when a cache file exists try to load it; a full
snapshot whose hash and version both match is a hit (zero parses), any
load failure logs a warning, and everything else falls through to the
parse path. `md5`, the author normalizer and the `_parse` hook are the
external collaborators, passed as functions. -/
def songInit (md5 : List Nat → List Nat)
    (processListauthors : List String → List (String × String) → List String)
    (parseHook : Option (List Nat) → Config → ParseResult)
    (fs : FS) (subpath : String) (config : Config) (datadir : Option String) :
    Except OSErr (Song × FS × Nat × List String) :=
  let selfDatadir := datadir.getD ""
  let fullpath := pathJoin selfDatadir subpath
  if datadirTruthy datadir then
    match fs.readBytes fullpath with
    | none => .error .enoent
    | some content =>
      let filehash := md5 content
      match cached_name fs selfDatadir subpath with
      | .error e => .error e
      | .ok (cpath, fs1) =>
        if fs1.pathExists cpath then
          match cached_name fs1 selfDatadir subpath with
          | .error _ =>
            songParsePath processListauthors parseHook config subpath selfDatadir
              fullpath (some filehash) [warnMsg fullpath] fs1
          | .ok (cpath2, fs2) =>
            match fs2.readCacheFile cpath2 with
            | none =>
              songParsePath processListauthors parseHook config subpath selfDatadir
                fullpath (some filehash) [warnMsg fullpath] fs2
            | some sn =>
              if sn.filehash = filehash ∧ sn.version = CACHE_VERSION then
                .ok (songFromSnap selfDatadir fullpath config sn, fs2, 0, [])
              else
                songParsePath processListauthors parseHook config subpath selfDatadir
                  fullpath (some filehash) [] fs2
        else
          songParsePath processListauthors parseHook config subpath selfDatadir
            fullpath (some filehash) [] fs1
  else
    songParsePath processListauthors parseHook config subpath selfDatadir
      fullpath none [] fs

/-- Errors `Song.render` can surface. -/
inductive RenderError where
  | notImplemented
  | other (msg : String)
deriving DecidableEq, Repr

/-- `"render_{}".format(output_format)`. -/
def renderMethodName (output_format : String) : String :=
  "render_" ++ output_format

/-- `Song.render`: `hasattr`/`getattr` dispatch over the instance's method
table (`methods` maps attribute names to the subclass render functions);
a missing method raises `NotImplementedError`. -/
def Song.render (methods : List (String × (Option String → String)))
    (output_format : String) (output : Option String) : Except RenderError String :=
  match methods.lookup (renderMethodName output_format) with
  | some f => .ok (f output)
  | none => .error .notImplemented

/-- Inner loop of `search_file`: each extension in order within one
directory, returning the first existing file's absolute path. -/
def searchExtList (fs : FS) (directory filename : String) :
    List String → Option String
  | [] => none
  | ext :: rest =>
    let fullpath := pathJoin directory (filename ++ ext)
    if fs.isfileAt fullpath then some (abspath fs.cwd fullpath)
    else searchExtList fs directory filename rest

/-- Outer loop of `search_file`: the directories in order. -/
def searchDirList (fs : FS) (filename : String) (extensions : List String) :
    List String → Option String
  | [] => none
  | d :: rest =>
    match searchExtList fs d filename extensions with
    | some p => some p
    | none => searchDirList fs filename extensions rest

/-- `Song.search_file`: default extensions `['']`, default directories
the configured datadirs; the song's own directory is searched first. -/
def Song.search_file (fs : FS) (song : Song) (filename : String)
    (extensions : Option (List String)) (directories : Option (List String)) :
    Option String :=
  let exts := extensions.getD [""]
  let dirs := directories.getD song.config.datadir
  let songdir := dirname song.fullpath
  searchDirList fs filename exts (songdir :: dirs)

/-- `Song.get_datadirs`: the configured datadirs whose `subdir` exists. -/
def Song.get_datadirs (fs : FS) (song : Song) (subdir : String) : List String :=
  song.config.datadir.filter (fun d => fs.isdir (pathJoin d subdir))

/-- `Song.search_image`. -/
def Song.search_image (fs : FS) (song : Song) (filename : String)
    (none_if_not_found : Bool) : Option String :=
  match song.search_file fs filename (some ["", ".jpg", ".png"])
      (some (song.get_datadirs fs "img")) with
  | some p => some p
  | none => if none_if_not_found then none else some filename

/-- `Song.search_partition`. -/
def Song.search_partition (fs : FS) (song : Song) (filename : String)
    (none_if_not_found : Bool) : Option String :=
  match song.search_file fs filename (some ["", ".ly"]) none with
  | some p => some p
  | none => if none_if_not_found then none else some filename

/-! ### Helper lemmas -/

theorem FS.isdir_addDir_self (fs : FS) (p : String) : (fs.addDir p).isdir p = true := by
  simp [FS.isdir, FS.addDir]

theorem FS.isdir_addDir_mono {fs : FS} {q : String} (h : fs.isdir q = true)
    (p : String) : (fs.addDir p).isdir q = true := by
  simp [FS.isdir, FS.addDir] at *
  exact Or.inr h

theorem makedirsF_ok : ∀ {fuel : Nat} {fs fs' : FS} {p : String},
    makedirsF fuel fs p = .ok fs' →
    fs'.cwd = fs.cwd ∧ fs'.files = fs.files ∧ p ≠ "" ∧ fs'.isdir p = true ∧
      ∀ q, fs.isdir q = true → fs'.isdir q = true := by
  intro fuel
  induction fuel with
  | zero => intro fs fs' p h; simp [makedirsF] at h
  | succ n ih =>
    intro fs fs' p h
    simp only [makedirsF] at h
    by_cases hp : p = ""
    · rw [if_pos hp] at h; simp at h
    · rw [if_neg hp] at h
      by_cases hex : fs.pathExists p = true
      · rw [if_pos hex] at h; simp at h
      · rw [if_neg hex] at h
        by_cases hpar : dirname p = "" ∨ dirname p = p
        · rw [if_pos hpar] at h
          cases h
          exact ⟨rfl, rfl, hp, FS.isdir_addDir_self fs p,
            fun q hq => FS.isdir_addDir_mono hq p⟩
        · rw [if_neg hpar] at h
          by_cases hd : fs.isdir (dirname p) = true
          · rw [if_pos hd] at h
            cases h
            exact ⟨rfl, rfl, hp, FS.isdir_addDir_self fs p,
              fun q hq => FS.isdir_addDir_mono hq p⟩
          · rw [if_neg hd] at h
            by_cases hf : fs.isfileAt (dirname p) = true
            · rw [if_pos hf] at h; simp at h
            · rw [if_neg hf] at h
              cases heq : makedirsF n fs (dirname p) with
              | error e => rw [heq] at h; simp at h
              | ok fs1 =>
                rw [heq] at h
                cases h
                obtain ⟨hc, hfi, _, _, hm⟩ := ih heq
                exact ⟨hc, hfi, hp, FS.isdir_addDir_self fs1 p,
                  fun q hq => FS.isdir_addDir_mono (hm q hq) p⟩

theorem cached_name_ok {fs fs' : FS} {dd fn r : String}
    (h : cached_name fs dd fn = .ok (r, fs')) :
    r = cachePathOf fs.cwd dd fn ∧ fs'.cwd = fs.cwd ∧ fs'.files = fs.files ∧
      dirname r ≠ "" ∧ fs'.isdir (dirname r) = true ∧
      ∀ q, fs.isdir q = true → fs'.isdir q = true := by
  unfold cached_name at h
  dsimp only at h
  cases heq : makedirs fs (dirname (abspath fs.cwd (pathJoin (pathJoin dd ".cache") fn))) with
  | ok fs1 =>
    rw [heq] at h
    cases h
    obtain ⟨hc, hf, hne, hd, hm⟩ := makedirsF_ok heq
    exact ⟨rfl, hc, hf, hne, hd, hm⟩
  | error e =>
    rw [heq] at h
    dsimp only at h
    by_cases hc : e = OSErr.eexist ∧
        fs.isdir (dirname (abspath fs.cwd (pathJoin (pathJoin dd ".cache") fn))) = true
    · rw [if_pos hc] at h
      cases h
      refine ⟨rfl, rfl, rfl, ?_, hc.2, fun q hq => hq⟩
      intro hemp
      rw [hemp] at heq
      simp [makedirs, makedirsF, hc.1] at heq
    · rw [if_neg hc] at h
      simp at h

theorem cached_name_isdir {fs : FS} {dd fn : String}
    (h1 : fs.isdir (dirname (cachePathOf fs.cwd dd fn)) = true)
    (h2 : dirname (cachePathOf fs.cwd dd fn) ≠ "") :
    cached_name fs dd fn = .ok (cachePathOf fs.cwd dd fn, fs) := by
  have hmk : makedirs fs (dirname (cachePathOf fs.cwd dd fn)) = .error .eexist := by
    unfold makedirs
    rw [makedirsF]
    rw [if_neg h2]
    have hex : fs.pathExists (dirname (cachePathOf fs.cwd dd fn)) = true := by
      simp [FS.pathExists, h1]
    rw [if_pos hex]
  unfold cachePathOf at h1 hmk ⊢
  unfold cached_name
  dsimp only
  rw [hmk]
  dsimp only
  rw [if_pos ⟨rfl, h1⟩]

theorem FS.writeFile_ok {fs fs' : FS} {p : String} {d : FileData}
    (h : fs.writeFile p d = .ok fs') :
    fs'.cwd = fs.cwd ∧ fs'.dirs = fs.dirs ∧
      fs'.files.lookup p = some d ∧
      ∀ q, q ≠ p → fs'.files.lookup q = fs.files.lookup q := by
  simp only [FS.writeFile] at h
  by_cases hd : fs.isdir p = true
  · rw [if_pos hd] at h; simp at h
  · rw [if_neg hd] at h
    cases h
    refine ⟨rfl, rfl, ?_, ?_⟩
    · simp [List.lookup]
    · intro q hq
      have : (q == p) = false := by simp [hq]
      simp [List.lookup, this]

@[simp] theorem parsedSong_datadir {pa hook cfg sp dd fp fh fs} :
    (parsedSong pa hook cfg sp dd fp fh fs).datadir = dd := rfl

@[simp] theorem parsedSong_subpath {pa hook cfg sp dd fp fh fs} :
    (parsedSong pa hook cfg sp dd fp fh fs).subpath = sp := rfl

@[simp] theorem parsedSong_version {pa hook cfg sp dd fp fh fs} :
    (parsedSong pa hook cfg sp dd fp fh fs).version = CACHE_VERSION := rfl

@[simp] theorem parsedSong_filehash {pa hook cfg sp dd fp fh fs} :
    (parsedSong pa hook cfg sp dd fp fh fs).filehash = fh := rfl

@[simp] theorem snapOfSong_titles {song : Song} :
    (snapOfSong song).titles = song.titles := rfl

@[simp] theorem snapOfSong_unprefixed_titles {song : Song} :
    (snapOfSong song).unprefixed_titles = song.unprefixed_titles := rfl

@[simp] theorem snapOfSong_cached {song : Song} :
    (snapOfSong song).cached = song.cached := rfl

@[simp] theorem snapOfSong_data {song : Song} :
    (snapOfSong song).data = song.data := rfl

@[simp] theorem snapOfSong_subpath {song : Song} :
    (snapOfSong song).subpath = song.subpath := rfl

@[simp] theorem snapOfSong_languages {song : Song} :
    (snapOfSong song).languages = song.languages := rfl

@[simp] theorem snapOfSong_authors {song : Song} :
    (snapOfSong song).authors = song.authors := rfl

@[simp] theorem snapOfSong_filehash {song : Song} :
    (snapOfSong song).filehash = song.filehash.getD [] := rfl

@[simp] theorem snapOfSong_version {song : Song} :
    (snapOfSong song).version = song.version := rfl

@[simp] theorem songFromSnap_titles {dd fp cfg sn} :
    (songFromSnap dd fp cfg sn).titles = sn.titles := rfl

@[simp] theorem songFromSnap_unprefixed_titles {dd fp cfg sn} :
    (songFromSnap dd fp cfg sn).unprefixed_titles = sn.unprefixed_titles := rfl

@[simp] theorem songFromSnap_cached {dd fp cfg sn} :
    (songFromSnap dd fp cfg sn).cached = sn.cached := rfl

@[simp] theorem songFromSnap_data {dd fp cfg sn} :
    (songFromSnap dd fp cfg sn).data = sn.data := rfl

@[simp] theorem songFromSnap_languages {dd fp cfg sn} :
    (songFromSnap dd fp cfg sn).languages = sn.languages := rfl

@[simp] theorem songFromSnap_authors {dd fp cfg sn} :
    (songFromSnap dd fp cfg sn).authors = sn.authors := rfl

theorem songParsePath_state
    {pa : List String → List (String × String) → List String}
    {hook : Option (List Nat) → Config → ParseResult}
    {cfg : Config} {sp dd fullpath : String} {fh : Option (List Nat)}
    {log : List String} {fsa : FS} {song1 : Song} {fs1 : FS} {n1 : Nat}
    {log1 : List String}
    (hdd : dd ≠ "")
    (hdir : fsa.isdir (dirname (cachePathOf fsa.cwd dd sp)) = true)
    (hdirne : dirname (cachePathOf fsa.cwd dd sp) ≠ "")
    (h : songParsePath pa hook cfg sp dd fullpath fh log fsa = .ok (song1, fs1, n1, log1)) :
    song1 = parsedSong pa hook cfg sp dd fullpath fh fsa ∧ n1 = 1 ∧ log1 = log ∧
      fs1.cwd = fsa.cwd ∧ fs1.dirs = fsa.dirs ∧
      fs1.files.lookup (cachePathOf fsa.cwd dd sp) =
        some (FileData.snap (snapOfSong song1)) ∧
      ∀ q, q ≠ cachePathOf fsa.cwd dd sp → fs1.files.lookup q = fsa.files.lookup q := by
  unfold songParsePath at h
  dsimp only [parsedSong_datadir, parsedSong_subpath] at h
  rw [if_neg hdd] at h
  rw [cached_name_isdir hdir hdirne] at h
  dsimp only at h
  cases hw : fsa.writeFile (cachePathOf fsa.cwd dd sp)
      (FileData.snap (snapOfSong (parsedSong pa hook cfg sp dd fullpath fh fsa))) with
  | error e => rw [hw] at h; simp at h
  | ok fsb =>
    rw [hw] at h
    dsimp only at h
    cases h
    obtain ⟨hc, hd, hl, ho⟩ := FS.writeFile_ok hw
    exact ⟨rfl, rfl, rfl, hc, hd, hl, ho⟩

theorem songInit_hit
    {md5 : List Nat → List Nat}
    {pa : List String → List (String × String) → List String}
    {hook : Option (List Nat) → Config → ParseResult}
    {fs : FS} {sp dd : String} {cfg : Config} {content : List Nat} {s : Snapshot}
    (hdd : dd ≠ "")
    (hfile : fs.readBytes (pathJoin dd sp) = some content)
    (hcache : fs.files.lookup (cachePathOf fs.cwd dd sp) = some (FileData.snap s))
    (hhash : s.filehash = md5 content) (hver : s.version = CACHE_VERSION)
    (hdir : fs.isdir (dirname (cachePathOf fs.cwd dd sp)) = true)
    (hdirne : dirname (cachePathOf fs.cwd dd sp) ≠ "") :
    songInit md5 pa hook fs sp cfg (some dd) =
      .ok (songFromSnap dd (pathJoin dd sp) cfg s, fs, 0, []) := by
  have htr : datadirTruthy (some dd) = true := by simp [datadirTruthy, hdd]
  have hex : fs.pathExists (cachePathOf fs.cwd dd sp) = true := by
    simp [FS.pathExists, FS.isfileAt, hcache]
  have hrc : fs.readCacheFile (cachePathOf fs.cwd dd sp) = some s := by
    simp [FS.readCacheFile, hcache]
  unfold songInit
  dsimp only [Option.getD_some]
  rw [if_pos htr, hfile]
  dsimp only
  rw [cached_name_isdir hdir hdirne]
  dsimp only
  rw [if_pos hex]
  rw [cached_name_isdir hdir hdirne]
  dsimp only
  rw [hrc]
  dsimp only
  rw [if_pos ⟨hhash, hver⟩]

theorem FS.readCacheFile_eq_some {fs : FS} {p : String} {s : Snapshot}
    (h : fs.readCacheFile p = some s) :
    fs.files.lookup p = some (FileData.snap s) := by
  unfold FS.readCacheFile at h
  cases hl : fs.files.lookup p with
  | none => rw [hl] at h; simp at h
  | some fd =>
    rw [hl] at h
    cases fd with
    | bytes b => simp at h
    | snap s2 => simp at h; rw [h]
    | corrupt => simp at h

theorem songInit_ok_state
    {md5 : List Nat → List Nat}
    {pa : List String → List (String × String) → List String}
    {hook : Option (List Nat) → Config → ParseResult}
    {fs : FS} {sp dd : String} {cfg : Config}
    {song1 : Song} {fs1 : FS} {n1 : Nat} {log1 : List String}
    (hdd : dd ≠ "")
    (hne : cachePathOf fs.cwd dd sp ≠ pathJoin dd sp)
    (h1 : songInit md5 pa hook fs sp cfg (some dd) = .ok (song1, fs1, n1, log1)) :
    ∃ content s,
      fs1.cwd = fs.cwd ∧
      fs.readBytes (pathJoin dd sp) = some content ∧
      fs1.readBytes (pathJoin dd sp) = some content ∧
      fs1.files.lookup (cachePathOf fs.cwd dd sp) = some (FileData.snap s) ∧
      s.filehash = md5 content ∧ s.version = CACHE_VERSION ∧
      fs1.isdir (dirname (cachePathOf fs.cwd dd sp)) = true ∧
      dirname (cachePathOf fs.cwd dd sp) ≠ "" ∧
      s.titles = song1.titles ∧ s.unprefixed_titles = song1.unprefixed_titles ∧
      s.cached = song1.cached ∧ s.data = song1.data ∧
      s.languages = song1.languages ∧ s.authors = song1.authors := by
  have htr : datadirTruthy (some dd) = true := by simp [datadirTruthy, hdd]
  unfold songInit at h1
  dsimp only [Option.getD_some] at h1
  rw [if_pos htr] at h1
  cases hb : fs.readBytes (pathJoin dd sp) with
  | none => rw [hb] at h1; dsimp only at h1; simp at h1
  | some content =>
    rw [hb] at h1
    dsimp only at h1
    cases hcn : cached_name fs dd sp with
    | error e => rw [hcn] at h1; dsimp only at h1; simp at h1
    | ok pr =>
      obtain ⟨cpath0, fsa⟩ := pr
      rw [hcn] at h1
      dsimp only at h1
      obtain ⟨hcp, hcwd, hfiles, hdne0, hdir0, hmono⟩ := cached_name_ok hcn
      subst hcp
      have hdne : dirname (cachePathOf fs.cwd dd sp) ≠ "" := hdne0
      have hdira : fsa.isdir (dirname (cachePathOf fsa.cwd dd sp)) = true := by
        rw [hcwd]; exact hdir0
      have hdnea : dirname (cachePathOf fsa.cwd dd sp) ≠ "" := by
        rw [hcwd]; exact hdne0
      have hcna : cached_name fsa dd sp = .ok (cachePathOf fs.cwd dd sp, fsa) := by
        rw [← hcwd]; exact cached_name_isdir hdira hdnea
      have key : ∀ log : List String,
          songParsePath pa hook cfg sp dd (pathJoin dd sp) (some (md5 content)) log fsa
            = .ok (song1, fs1, n1, log1) →
          ∃ content2 s,
            fs1.cwd = fs.cwd ∧
            (some content : Option (List Nat)) = some content2 ∧
            fs1.readBytes (pathJoin dd sp) = some content2 ∧
            fs1.files.lookup (cachePathOf fs.cwd dd sp) = some (FileData.snap s) ∧
            s.filehash = md5 content2 ∧ s.version = CACHE_VERSION ∧
            fs1.isdir (dirname (cachePathOf fs.cwd dd sp)) = true ∧
            dirname (cachePathOf fs.cwd dd sp) ≠ "" ∧
            s.titles = song1.titles ∧ s.unprefixed_titles = song1.unprefixed_titles ∧
            s.cached = song1.cached ∧ s.data = song1.data ∧
            s.languages = song1.languages ∧ s.authors = song1.authors := by
        intro log hp
        obtain ⟨hsong, hn, hlog, hc, hd, hl, ho⟩ := songParsePath_state hdd hdira hdnea hp
        have hcwd1 : fs1.cwd = fs.cwd := by rw [hc, hcwd]
        have hnear : pathJoin dd sp ≠ cachePathOf fsa.cwd dd sp := by
          rw [hcwd]; exact Ne.symm hne
        have hrb : fs1.readBytes (pathJoin dd sp) = some content := by
          unfold FS.readBytes
          rw [ho (pathJoin dd sp) hnear, hfiles]
          unfold FS.readBytes at hb
          exact hb
        refine ⟨content, snapOfSong song1, hcwd1, rfl, hrb, ?_, ?_, ?_, ?_, hdne,
          rfl, rfl, rfl, rfl, rfl, rfl⟩
        · rw [← hcwd]; exact hl
        · rw [snapOfSong_filehash, hsong, parsedSong_filehash]
          rfl
        · rw [snapOfSong_version, hsong, parsedSong_version]
        · unfold FS.isdir
          rw [hd]
          have := hdira
          rw [hcwd] at this
          exact this
      by_cases hpe : fsa.pathExists (cachePathOf fs.cwd dd sp) = true
      · rw [if_pos hpe] at h1
        rw [hcna] at h1
        dsimp only at h1
        cases hrcs : fsa.readCacheFile (cachePathOf fs.cwd dd sp) with
        | none => rw [hrcs] at h1; dsimp only at h1; exact key _ h1
        | some sn =>
          rw [hrcs] at h1
          dsimp only at h1
          by_cases hcond : sn.filehash = md5 content ∧ sn.version = CACHE_VERSION
          · rw [if_pos hcond] at h1
            cases h1
            refine ⟨content, sn, hcwd, rfl, ?_, ?_, hcond.1, hcond.2, ?_, hdne,
              rfl, rfl, rfl, rfl, rfl, rfl⟩
            · unfold FS.readBytes
              rw [hfiles]
              unfold FS.readBytes at hb
              exact hb
            · exact FS.readCacheFile_eq_some hrcs
            · rw [← hcwd]; exact hdira
          · rw [if_neg hcond] at h1
            exact key _ h1
      · rw [if_neg hpe] at h1
        exact key _ h1
theorem isabs_append {a : String} (b : String) (ha : a ≠ "") :
    isabs (a ++ b) = isabs a := by
  unfold isabs
  rw [String.data_append]
  cases hd : a.data with
  | nil => exact absurd (String.ext hd) ha
  | cons c l => rfl

theorem append_ne_empty_left {a b : String} (ha : a ≠ "") : a ++ b ≠ "" := by
  intro h
  apply ha
  have hd : a.data ++ b.data = [] := by
    rw [← String.data_append, h]
  exact String.ext (List.append_eq_nil.mp hd).1

theorem pathJoin_isabs {a b : String} (hb : isabs b = false)
    (h : isabs (pathJoin a b) = true) : isabs a = true := by
  unfold pathJoin at h
  rw [if_neg (by simp [hb])] at h
  by_cases hae : a = "" ∨ endsWithSlash a = true
  · rw [if_pos hae] at h
    by_cases ha : a = ""
    · subst ha
      have hred : isabs ("" ++ b) = isabs b := by
        unfold isabs
        rw [String.data_append]
        rfl
      rw [hred, hb] at h
      cases h
    · rw [isabs_append b ha] at h
      exact h
  · rw [if_neg hae] at h
    have ha : a ≠ "" := fun hh => hae (Or.inl hh)
    rw [isabs_append b (append_ne_empty_left (b := "/") ha),
      isabs_append "/" ha] at h
    exact h

/-! ### Claim theorems -/

/-- C4 (counterexample): the state `⟨"base", "/abs"⟩` is reachable — via
`DataSubpath("base", "rel").join("/abs")` — and violates the claimed
invariant: its `subpath` is absolute while its `datadir` is non-empty
(`os.path.join` replaces the whole subpath by an absolute argument, and
`join` never re-checks the constructor's invariant). -/
theorem DataSubpath_invariant_counterexample :
    DataSubpath.Reachable { datadir := "base", subpath := "/abs" } ∧
    isabs ({ datadir := "base", subpath := "/abs" } : DataSubpath).subpath = true ∧
    ({ datadir := "base", subpath := "/abs" } : DataSubpath).datadir ≠ "" := by
  refine ⟨?_, by decide, by decide⟩
  have h0 := DataSubpath.Reachable.join _ "/abs"
    (DataSubpath.Reachable.init "base" "rel")
  have he : (DataSubpath.init "base" "rel").join "/abs" =
      { datadir := "base", subpath := "/abs" } := by decide
  rw [he] at h0
  exact h0

/-- C4 (amended): the invariant — an absolute `subpath` forces an empty
`datadir` — holds at construction and is preserved by every `join` whose
appended segment is relative; hence it holds for all states reachable by
relative joins. A `join` with an absolute segment can break it. -/
theorem DataSubpath_invariant_rel (s : DataSubpath)
    (h : DataSubpath.ReachableRel s) (habs : isabs s.subpath = true) :
    s.datadir = "" := by
  revert habs
  induction h with
  | init d sp =>
    intro habs
    unfold DataSubpath.init at habs ⊢
    by_cases hs : isabs sp = true
    · rw [if_pos hs]
    · rw [if_neg hs] at habs ⊢
      exact absurd habs hs
  | join s p hp hrel ih =>
    intro habs
    exact ih (pathJoin_isabs hp habs)

theorem DataSubpath_invariant_rel_witness :
    (DataSubpath.init "d" "/a").datadir = "" :=
  DataSubpath_invariant_rel _ (DataSubpath.ReachableRel.init "d" "/a") (by decide)

/-- Modelled from the spec's words (§4.4, C7): strip the first prefix of
the list that matches at the start of the title as a whole word, together
with any following whitespace, and return the remainder; no regex `.`/`$`
constraint on the remainder. -/
def claimStrip (p t : List Char) : Option (List Char) :=
  if p.isPrefixOf t ∧ boundaryOK p (t.drop p.length) then
    some ((t.drop p.length).dropWhile pySpace)
  else none

/-- Modelled from the spec's words (§4.4, C7): `unprefixed_title` as the
claim describes it, built on `claimStrip`. -/
def specUnprefixedTitle (title : String) (prefixes : List String) : String :=
  match prefixes with
  | [] => title
  | p :: rest =>
    match claimStrip p.toList title.toList with
    | some r => String.mk r
    | none => specUnprefixedTitle title rest

theorem takeWhile_ne_all {m : List Char} (h : ∀ x ∈ m, x ≠ '\n') :
    m.takeWhile (fun x => decide (x ≠ '\n')) = m := by
  induction m with
  | nil => rfl
  | cons a t ih =>
    have ha : a ≠ '\n' := h a (List.mem_cons_self a t)
    rw [List.takeWhile_cons, decide_eq_true ha, if_pos rfl,
      ih (fun x hx => h x (List.mem_cons_of_mem a hx))]

theorem matchTail_no_newline {l : List Char} (h : '\n' ∉ l) :
    matchTail l = some (l.dropWhile pySpace) := by
  unfold matchTail
  dsimp only
  have hsub : ∀ x ∈ l.dropWhile pySpace, x ≠ '\n' := by
    intro x hx hxe
    exact h (hxe ▸ (List.dropWhile_sublist pySpace).subset hx)
  rw [takeWhile_ne_all hsub, List.drop_length]
  rw [if_pos (Or.inl rfl)]

theorem matchTitleHead_no_newline {p t : List Char} (h : '\n' ∉ t) :
    matchTitleHead p t = claimStrip p t := by
  unfold matchTitleHead claimStrip
  by_cases hp : p.isPrefixOf t = true
  · rw [if_pos hp]
    by_cases hbd : boundaryOK p (t.drop p.length) = true
    · rw [if_pos hbd, if_pos ⟨hp, hbd⟩]
      exact matchTail_no_newline (fun hmem => h (List.drop_subset p.length t hmem))
    · rw [if_neg hbd, if_neg (fun hc => hbd hc.2)]
  · rw [if_neg hp, if_neg (fun hc => hp hc.1)]

/-- C7 (counterexample): for the title `"The x\ny"` and the single prefix
`"The"`, the prefix matches at the start as a whole word, so the claim
demands `"x\ny"`; but the compiled pattern `^(The)\b\s*(.*)$` fails (`.`
cannot cross the interior newline and `$` cannot match before it), so the
code returns the title unchanged. -/
theorem unprefixed_title_counterexample :
    unprefixed_title "The x\ny" ["The"] = "The x\ny" ∧
    specUnprefixedTitle "The x\ny" ["The"] = "x\ny" ∧
    unprefixed_title "The x\ny" ["The"] ≠ specUnprefixedTitle "The x\ny" ["The"] := by
  refine ⟨by decide, by decide, by decide⟩

/-- C7 (amended): for every title containing no newline character and
every prefix list whose entries contain no regex metacharacter (so the
source's interpolated pattern matches each prefix literally), the first
prefix of the list that matches at the start of the title as a whole
word is removed together with following whitespace and the remainder
returned, and an unmatched title is returned unchanged; in particular
the two concrete examples of the claim hold. Outside these restrictions
the code diverges: a title with an interior newline is returned
unchanged even when a prefix matches, and a metacharacter prefix is
interpreted as a regex pattern rather than a literal (an ill-formed one
raises `re.error`). -/
theorem unprefixed_title_amended :
    (∀ (title : String) (prefixes : List String), '\n' ∉ title.toList →
      (∀ p ∈ prefixes, regexLiteral p = true) →
      unprefixed_title title prefixes = specUnprefixedTitle title prefixes) ∧
    unprefixed_title "The Song" ["The"] = "Song" ∧
    unprefixed_title "Song" ["The"] = "Song" := by
  refine ⟨?_, by decide, by decide⟩
  intro title prefixes h hlit
  induction prefixes with
  | nil => rfl
  | cons p rest ih =>
    unfold unprefixed_title specUnprefixedTitle
    rw [matchTitleHead_no_newline h]
    cases claimStrip p.toList title.toList with
    | none => exact ih (fun q hq => hlit q (List.mem_cons_of_mem p hq))
    | some r => rfl

theorem unprefixed_title_amended_witness :
    unprefixed_title "The Song morning" ["A", "The"] =
      specUnprefixedTitle "The Song morning" ["A", "The"] :=
  unprefixed_title_amended.1 "The Song morning" ["A", "The"]
    (by decide) (by decide)

/-- C5: `cached_name` returns the absolute path of
`datadir/.cache/filename` and on success its containing directory exists;
a creation failure that is `EEXIST` with the directory indeed present is
swallowed as success (state unchanged); any other creation failure
propagates unchanged to the caller. -/
theorem cached_name_spec (fs : FS) (datadir filename : String) :
    (∀ r fs', cached_name fs datadir filename = .ok (r, fs') →
      r = cachePathOf fs.cwd datadir filename ∧ fs'.isdir (dirname r) = true) ∧
    (fs.isdir (dirname (cachePathOf fs.cwd datadir filename)) = true →
      dirname (cachePathOf fs.cwd datadir filename) ≠ "" →
      cached_name fs datadir filename =
        .ok (cachePathOf fs.cwd datadir filename, fs)) ∧
    (∀ e, makedirs fs (dirname (cachePathOf fs.cwd datadir filename)) = .error e →
      ¬(e = OSErr.eexist ∧
          fs.isdir (dirname (cachePathOf fs.cwd datadir filename)) = true) →
      cached_name fs datadir filename = .error e) := by
  refine ⟨?_, fun h1 h2 => cached_name_isdir h1 h2, ?_⟩
  · intro r fs' h
    obtain ⟨h1, _, _, _, h5, _⟩ := cached_name_ok h
    exact ⟨h1, h5⟩
  · intro e he hne
    unfold cachePathOf at he hne
    unfold cached_name
    dsimp only
    rw [he]
    dsimp only
    rw [if_neg hne]

theorem cached_name_spec_witness :
    cached_name ⟨"/", ["/d", "/d/.cache"], []⟩ "/d" "s" =
      .ok ("/d/.cache/s", ⟨"/", ["/d", "/d/.cache"], []⟩) := by
  have h := (cached_name_spec ⟨"/", ["/d", "/d/.cache"], []⟩ "/d" "s").2.1
    (by decide) (by decide)
  have he : cachePathOf (FS.mk "/" ["/d", "/d/.cache"] []).cwd "/d" "s" =
      "/d/.cache/s" := by decide
  rw [he] at h
  exact h

theorem searchExtList_eq (fs : FS) (d fn : String) (exts : List String) :
    searchExtList fs d fn exts =
      ((exts.map (fun e => pathJoin d (fn ++ e))).find?
        (fun p => fs.isfileAt p)).map (abspath fs.cwd) := by
  induction exts with
  | nil => rfl
  | cons e rest ih =>
    simp only [searchExtList, List.map_cons, List.find?_cons]
    cases hf : fs.isfileAt (pathJoin d (fn ++ e)) with
    | true => simp [hf]
    | false => simp [hf, ih]

theorem searchDirList_eq (fs : FS) (fn : String) (exts : List String)
    (dirs : List String) :
    searchDirList fs fn exts dirs =
      ((dirs.flatMap (fun d => exts.map (fun e => pathJoin d (fn ++ e)))).find?
        (fun p => fs.isfileAt p)).map (abspath fs.cwd) := by
  induction dirs with
  | nil => rfl
  | cons d rest ih =>
    simp only [searchDirList, List.flatMap_cons, List.find?_append]
    rw [searchExtList_eq fs d fn exts, ih]
    cases hf : (exts.map (fun e => pathJoin d (fn ++ e))).find?
        (fun p => fs.isfileAt p) with
    | some q => simp [hf]
    | none => simp [hf]

/-- C6: `search_file` visits the song's own directory first and then the
given directories in order, trying each extension in order within each
directory, and returns the absolute path of the first candidate that is
an existing file (`List.find?` over the flattened visit order); it
returns `none` when no candidate exists. -/
theorem search_file_spec (fs : FS) (song : Song) (filename : String)
    (extensions directories : Option (List String)) :
    Song.search_file fs song filename extensions directories =
      (((dirname song.fullpath :: directories.getD song.config.datadir).flatMap
          (fun d => (extensions.getD [""]).map
            (fun e => pathJoin d (filename ++ e)))).find?
        (fun p => fs.isfileAt p)).map (abspath fs.cwd) := by
  unfold Song.search_file
  dsimp only
  exact searchDirList_eq fs filename _ _

/-- C8: `render` invokes the instance method named `render_<format>` when
the instance has one, and raises `NotImplementedError` — not a silent
no-op nor an unrelated error — when it has none. -/
theorem render_dispatch_spec (methods : List (String × (Option String → String)))
    (output_format : String) (output : Option String) :
    (∀ f, methods.lookup (renderMethodName output_format) = some f →
      Song.render methods output_format output = .ok (f output)) ∧
    (methods.lookup (renderMethodName output_format) = none →
      Song.render methods output_format output =
        .error RenderError.notImplemented) := by
  constructor
  · intro f hf
    unfold Song.render
    rw [hf]
  · intro hn
    unfold Song.render
    rw [hn]

/-- A concrete method table for the render-dispatch witness. -/
def renderTableA : List (String × (Option String → String)) :=
  [("render_latex", fun _ => "L")]

theorem render_dispatch_spec_witness :
    Song.render renderTableA "latex" none = .ok "L" ∧
    Song.render renderTableA "html" none = .error RenderError.notImplemented := by
  constructor
  · exact (render_dispatch_spec renderTableA "latex" none).1 (fun _ => "L") rfl
  · exact (render_dispatch_spec renderTableA "html" none).2 rfl

/-- C9: with an absent or empty base directory the construction performs
no cache activity at all: the filesystem is returned unchanged (no cache
load, no directory creation, no cache write), the `_parse` hook runs
exactly once, and nothing is logged. -/
theorem song_no_datadir_spec (md5 : List Nat → List Nat)
    (pa : List String → List (String × String) → List String)
    (hook : Option (List Nat) → Config → ParseResult)
    (fs : FS) (subpath : String) (config : Config) (datadir : Option String)
    (h : datadirTruthy datadir = false) :
    songInit md5 pa hook fs subpath config datadir =
      .ok (parsedSong pa hook config subpath ""
        (pathJoin (datadir.getD "") subpath) none fs, fs, 1, []) := by
  have hgd : datadir.getD "" = "" := by
    cases datadir with
    | none => rfl
    | some d =>
      simp only [datadirTruthy, decide_eq_false_iff_not, not_not] at h
      simp [h]
  unfold songInit
  rw [if_neg (by simp [h])]
  rw [hgd]
  unfold songParsePath
  dsimp only [parsedSong_datadir]
  rw [if_pos rfl]

/-- Concrete fixtures for pipeline witnesses. -/
def md5A : List Nat → List Nat := fun b => 0 :: b

def paA : List String → List (String × String) → List String := fun a _ => a

def hookA : Option (List Nat) → Config → ParseResult :=
  fun _ _ => ⟨["The Song"], ["english"], ["Author A"], [("by", "A")], none⟩

def cfgA : Config := ⟨"utf8", ["The"], none, []⟩

def fsA : FS := ⟨"/", ["/d"], [("/d/s", FileData.bytes [7])]⟩

theorem song_no_datadir_spec_witness :
    songInit md5A paA hookA fsA "s" cfgA none =
      .ok (parsedSong paA hookA cfgA "s" "" (pathJoin (Option.getD none "") "s")
        none fsA, fsA, 1, []) :=
  song_no_datadir_spec md5A paA hookA fsA "s" cfgA none rfl

/-- C1: if a `Song` is successfully constructed from a file in a
non-empty datadir (whose cache path does not collide with the song file
itself), a second construction from the unchanged state is a cache hit:
it returns with the `_parse` counter at zero, the filesystem untouched,
and `titles`, `authors`, `data`, `languages` field-for-field equal to the
first construction's. -/
theorem song_cache_roundtrip
    (md5 : List Nat → List Nat)
    (pa : List String → List (String × String) → List String)
    (hook : Option (List Nat) → Config → ParseResult)
    (fs : FS) (sp dd : String) (cfg : Config)
    (song1 : Song) (fs1 : FS) (n1 : Nat) (log1 : List String)
    (hdd : dd ≠ "")
    (hne : cachePathOf fs.cwd dd sp ≠ pathJoin dd sp)
    (h1 : songInit md5 pa hook fs sp cfg (some dd) = .ok (song1, fs1, n1, log1)) :
    ∃ s : Snapshot,
      songInit md5 pa hook fs1 sp cfg (some dd) =
        .ok (songFromSnap dd (pathJoin dd sp) cfg s, fs1, 0, []) ∧
      (songFromSnap dd (pathJoin dd sp) cfg s).titles = song1.titles ∧
      (songFromSnap dd (pathJoin dd sp) cfg s).authors = song1.authors ∧
      (songFromSnap dd (pathJoin dd sp) cfg s).data = song1.data ∧
      (songFromSnap dd (pathJoin dd sp) cfg s).languages = song1.languages := by
  obtain ⟨content, s, hcwd1, hb, hrb, hl, hh, hv, hdir1, hdne1,
    ht, hu, hcch, hdta, hlng, hath⟩ := songInit_ok_state hdd hne h1
  refine ⟨s, ?_, ?_, ?_, ?_, ?_⟩
  · have hl' : fs1.files.lookup (cachePathOf fs1.cwd dd sp) =
        some (FileData.snap s) := by rw [hcwd1]; exact hl
    have hdir' : fs1.isdir (dirname (cachePathOf fs1.cwd dd sp)) = true := by
      rw [hcwd1]; exact hdir1
    have hdne' : dirname (cachePathOf fs1.cwd dd sp) ≠ "" := by
      rw [hcwd1]; exact hdne1
    exact songInit_hit hdd hrb hl' hh hv hdir' hdne'
  · rw [songFromSnap_titles]; exact ht
  · rw [songFromSnap_authors]; exact hath
  · rw [songFromSnap_data]; exact hdta
  · rw [songFromSnap_languages]; exact hlng

/-- C10: the hit condition checks only the content hash and the schema
version, so a second construction over the same unchanged file with an
arbitrary different config is still a hit: zero parses, and the
`unprefixed_titles` and `authors` restored from the cache are exactly the
first run's post-processed values — prefix stripping and author
normalization are not re-applied under the new config. -/
theorem cache_ignores_config
    (md5 : List Nat → List Nat)
    (pa : List String → List (String × String) → List String)
    (hook : Option (List Nat) → Config → ParseResult)
    (fs : FS) (sp dd : String) (cfg1 cfg2 : Config)
    (song1 : Song) (fs1 : FS) (n1 : Nat) (log1 : List String)
    (hdd : dd ≠ "")
    (hne : cachePathOf fs.cwd dd sp ≠ pathJoin dd sp)
    (h1 : songInit md5 pa hook fs sp cfg1 (some dd) = .ok (song1, fs1, n1, log1)) :
    ∃ s : Snapshot,
      songInit md5 pa hook fs1 sp cfg2 (some dd) =
        .ok (songFromSnap dd (pathJoin dd sp) cfg2 s, fs1, 0, []) ∧
      (songFromSnap dd (pathJoin dd sp) cfg2 s).unprefixed_titles =
        song1.unprefixed_titles ∧
      (songFromSnap dd (pathJoin dd sp) cfg2 s).authors = song1.authors := by
  obtain ⟨content, s, hcwd1, hb, hrb, hl, hh, hv, hdir1, hdne1,
    ht, hu, hcch, hdta, hlng, hath⟩ := songInit_ok_state hdd hne h1
  refine ⟨s, ?_, ?_, ?_⟩
  · have hl' : fs1.files.lookup (cachePathOf fs1.cwd dd sp) =
        some (FileData.snap s) := by rw [hcwd1]; exact hl
    have hdir' : fs1.isdir (dirname (cachePathOf fs1.cwd dd sp)) = true := by
      rw [hcwd1]; exact hdir1
    have hdne' : dirname (cachePathOf fs1.cwd dd sp) ≠ "" := by
      rw [hcwd1]; exact hdne1
    exact songInit_hit hdd hrb hl' hh hv hdir' hdne'
  · rw [songFromSnap_unprefixed_titles]; exact hu
  · rw [songFromSnap_authors]; exact hath

/-- The song the fixture's first construction produces. -/
def song1A : Song :=
  parsedSong paA hookA cfgA "s" "/d" (pathJoin "/d" "s") (some (md5A [7])) fsA

/-- The filesystem after the fixture's first construction: the cache
directory was created and the snapshot written. -/
def fs1A : FS :=
  ⟨"/", ["/d/.cache", "/d"],
    [("/d/.cache/s", FileData.snap (snapOfSong song1A)),
     ("/d/s", FileData.bytes [7])]⟩

theorem song_cache_roundtrip_witness :
    ∃ s : Snapshot,
      songInit md5A paA hookA fs1A "s" cfgA (some "/d") =
        .ok (songFromSnap "/d" (pathJoin "/d" "s") cfgA s, fs1A, 0, []) ∧
      (songFromSnap "/d" (pathJoin "/d" "s") cfgA s).titles = song1A.titles ∧
      (songFromSnap "/d" (pathJoin "/d" "s") cfgA s).authors = song1A.authors ∧
      (songFromSnap "/d" (pathJoin "/d" "s") cfgA s).data = song1A.data ∧
      (songFromSnap "/d" (pathJoin "/d" "s") cfgA s).languages = song1A.languages :=
  song_cache_roundtrip md5A paA hookA fsA "s" "/d" cfgA song1A fs1A 1 []
    (by decide) (by decide) (by decide)

/-- A second config differing from `cfgA` in its title-prefix words and
author-normalizer options. -/
def cfgB : Config := ⟨"utf8", [], some [("sep", "and")], []⟩

theorem cache_ignores_config_witness :
    ∃ s : Snapshot,
      songInit md5A paA hookA fs1A "s" cfgB (some "/d") =
        .ok (songFromSnap "/d" (pathJoin "/d" "s") cfgB s, fs1A, 0, []) ∧
      (songFromSnap "/d" (pathJoin "/d" "s") cfgB s).unprefixed_titles =
        song1A.unprefixed_titles ∧
      (songFromSnap "/d" (pathJoin "/d" "s") cfgB s).authors = song1A.authors :=
  cache_ignores_config md5A paA hookA fsA "s" "/d" cfgA cfgB song1A fs1A 1 []
    (by decide) (by decide) (by decide)

/-- C2: for a deserializable snapshot on disk, the load is a hit — zero
parses, state unchanged — exactly when the stored hash equals the hash of
the current bytes and the stored version equals `CACHE_VERSION`; on any
mismatch the construction re-parses (count 1, nothing logged: the stale
entry is silently ignored and never deleted) and finishes by writing the
fresh snapshot, carrying the new hash and current version, over the cache
path. -/
theorem cache_hit_condition
    (md5 : List Nat → List Nat)
    (pa : List String → List (String × String) → List String)
    (hook : Option (List Nat) → Config → ParseResult)
    (fs : FS) (sp dd : String) (cfg : Config) (content : List Nat) (s : Snapshot)
    (hdd : dd ≠ "")
    (hfile : fs.readBytes (pathJoin dd sp) = some content)
    (hcache : fs.files.lookup (cachePathOf fs.cwd dd sp) = some (FileData.snap s))
    (hdir : fs.isdir (dirname (cachePathOf fs.cwd dd sp)) = true)
    (hdirne : dirname (cachePathOf fs.cwd dd sp) ≠ "")
    (hnotd : fs.isdir (cachePathOf fs.cwd dd sp) = false) :
    (s.filehash = md5 content ∧ s.version = CACHE_VERSION →
      songInit md5 pa hook fs sp cfg (some dd) =
        .ok (songFromSnap dd (pathJoin dd sp) cfg s, fs, 0, [])) ∧
    (¬(s.filehash = md5 content ∧ s.version = CACHE_VERSION) →
      songInit md5 pa hook fs sp cfg (some dd) =
        .ok (parsedSong pa hook cfg sp dd (pathJoin dd sp) (some (md5 content)) fs,
          { fs with files := (cachePathOf fs.cwd dd sp,
              FileData.snap (snapOfSong (parsedSong pa hook cfg sp dd
                (pathJoin dd sp) (some (md5 content)) fs))) :: fs.files },
          1, []) ∧
      (snapOfSong (parsedSong pa hook cfg sp dd (pathJoin dd sp)
        (some (md5 content)) fs)).filehash = md5 content ∧
      (snapOfSong (parsedSong pa hook cfg sp dd (pathJoin dd sp)
        (some (md5 content)) fs)).version = CACHE_VERSION) := by
  have htr : datadirTruthy (some dd) = true := by simp [datadirTruthy, hdd]
  have hex : fs.pathExists (cachePathOf fs.cwd dd sp) = true := by
    simp [FS.pathExists, FS.isfileAt, hcache]
  have hrc : fs.readCacheFile (cachePathOf fs.cwd dd sp) = some s := by
    simp [FS.readCacheFile, hcache]
  constructor
  · intro hcond
    exact songInit_hit hdd hfile hcache hcond.1 hcond.2 hdir hdirne
  · intro hcond
    refine ⟨?_, rfl, rfl⟩
    unfold songInit
    dsimp only [Option.getD_some]
    rw [if_pos htr, hfile]
    dsimp only
    rw [cached_name_isdir hdir hdirne]
    dsimp only
    rw [if_pos hex]
    rw [cached_name_isdir hdir hdirne]
    dsimp only
    rw [hrc]
    dsimp only
    rw [if_neg hcond]
    unfold songParsePath
    dsimp only [parsedSong_datadir, parsedSong_subpath]
    rw [if_neg hdd]
    rw [cached_name_isdir hdir hdirne]
    dsimp only
    unfold FS.writeFile
    rw [if_neg (by simp [hnotd])]

/-- A deserializable snapshot matching the fixture file's hash and the
current schema version. -/
def snapA : Snapshot :=
  ⟨["The Song"], ["Song"], none, [("by", "A")], "s", ["english"],
    ["Author A"], [0, 7], 2⟩

/-- A filesystem whose cache already holds `snapA` for the fixture song. -/
def fsB : FS :=
  ⟨"/", ["/d", "/d/.cache"],
    [("/d/s", FileData.bytes [7]), ("/d/.cache/s", FileData.snap snapA)]⟩

theorem cache_hit_condition_witness :
    songInit md5A paA hookA fsB "s" cfgA (some "/d") =
      .ok (songFromSnap "/d" (pathJoin "/d" "s") cfgA snapA, fsB, 0, []) :=
  (cache_hit_condition md5A paA hookA fsB "s" "/d" cfgA [7] snapA
    (by decide) (by decide) (by decide) (by decide) (by decide) (by decide)).1
    (by decide)

/-- C3: when the cache file exists but deserialization fails (corrupt or
truncated pickle, or a snapshot missing a required key — all collapsed
into `readCacheFile = none`), construction does not raise from the
cache-load step: it returns successfully, logs exactly the warning naming
the song's path, parses once, and persists the fresh snapshot. -/
theorem cache_corrupt_spec
    (md5 : List Nat → List Nat)
    (pa : List String → List (String × String) → List String)
    (hook : Option (List Nat) → Config → ParseResult)
    (fs : FS) (sp dd : String) (cfg : Config) (content : List Nat)
    (hdd : dd ≠ "")
    (hfile : fs.readBytes (pathJoin dd sp) = some content)
    (hisf : fs.isfileAt (cachePathOf fs.cwd dd sp) = true)
    (hbad : fs.readCacheFile (cachePathOf fs.cwd dd sp) = none)
    (hdir : fs.isdir (dirname (cachePathOf fs.cwd dd sp)) = true)
    (hdirne : dirname (cachePathOf fs.cwd dd sp) ≠ "")
    (hnotd : fs.isdir (cachePathOf fs.cwd dd sp) = false) :
    songInit md5 pa hook fs sp cfg (some dd) =
      .ok (parsedSong pa hook cfg sp dd (pathJoin dd sp) (some (md5 content)) fs,
        { fs with files := (cachePathOf fs.cwd dd sp,
            FileData.snap (snapOfSong (parsedSong pa hook cfg sp dd
              (pathJoin dd sp) (some (md5 content)) fs))) :: fs.files },
        1, [warnMsg (pathJoin dd sp)]) := by
  have htr : datadirTruthy (some dd) = true := by simp [datadirTruthy, hdd]
  have hex : fs.pathExists (cachePathOf fs.cwd dd sp) = true := by
    simp [FS.pathExists, hisf]
  unfold songInit
  dsimp only [Option.getD_some]
  rw [if_pos htr, hfile]
  dsimp only
  rw [cached_name_isdir hdir hdirne]
  dsimp only
  rw [if_pos hex]
  rw [cached_name_isdir hdir hdirne]
  dsimp only
  rw [hbad]
  dsimp only
  unfold songParsePath
  dsimp only [parsedSong_datadir, parsedSong_subpath]
  rw [if_neg hdd]
  rw [cached_name_isdir hdir hdirne]
  dsimp only
  unfold FS.writeFile
  rw [if_neg (by simp [hnotd])]

/-- A filesystem whose cache entry for the fixture song is corrupt. -/
def fsC : FS :=
  ⟨"/", ["/d", "/d/.cache"],
    [("/d/s", FileData.bytes [7]), ("/d/.cache/s", FileData.corrupt)]⟩

theorem cache_corrupt_spec_witness :
    songInit md5A paA hookA fsC "s" cfgA (some "/d") =
      .ok (parsedSong paA hookA cfgA "s" "/d" (pathJoin "/d" "s")
          (some (md5A [7])) fsC,
        { fsC with files := (cachePathOf fsC.cwd "/d" "s",
            FileData.snap (snapOfSong (parsedSong paA hookA cfgA "s" "/d"
              (pathJoin "/d" "s") (some (md5A [7])) fsC))) :: fsC.files },
        1, [warnMsg (pathJoin "/d" "s")]) :=
  cache_corrupt_spec md5A paA hookA fsC "s" "/d" cfgA [7]
    (by decide) (by decide) (by decide) (by decide) (by decide) (by decide)
    (by decide)
